import Mathlib

/-!
Verification of the concurrent HTTP benchmark tool (`src/main.py`).

Shallow embedding conventions:
* HTTP status codes are `ℤ` (Python ints), elapsed times are `ℚ`
  (exact-rational model of Python floats).
* The HTTP transport is an oracle value `Transport`: either a response
  with a status code and an elapsed time, or a raised
  `requests.exceptions.RequestException` (connection refused, timeout,
  DNS failure, TLS failure, ...).
* The concurrent `as_completed` loop is modelled by folding an arbitrary
  list of completed `(host, outcome)` pairs; nondeterministic completion
  order is modelled by quantifying over permutations of the task multiset.
* Python dicts keyed by host are modelled as total functions
  `String → TargetStats` (for the values) together with `dictKeys`
  (first-occurrence key list, mirroring dict-comprehension key semantics).
-/

/-- The possible transport-level failures that `requests.get` signals by
raising a subclass of `requests.exceptions.RequestException`. -/
inductive TransportFailure where
  | connectionRefused
  | timeout
  | dnsFailure
  | tlsFailure
  | other
deriving DecidableEq

/-- Behaviour of one `requests.get(url, timeout=5)` call: either a response
with an HTTP status code (and the measured wall-clock elapsed time), or a
raised `RequestException`. -/
inductive Transport where
  | response (status : ℤ) (elapsed : ℚ)
  | exception (reason : TransportFailure)
deriving DecidableEq

/-- Return value of `perform_request` (src/main.py lines 26-34): either
`(response.status_code, elapsed)` or `(None, None)` on `RequestException`. -/
inductive Outcome where
  | ok (status : ℤ) (elapsed : ℚ)
  | err
deriving DecidableEq

/-- Model of `perform_request` (src/main.py lines 26-34): issues the request, measures
elapsed time, and returns `(status, elapsed)`; a `RequestException` is caught
and turned into `(None, None)` — it is never propagated. -/
def perform_request : Transport → Outcome
  | .response s e => .ok s e
  | .exception _ => .err

/-- Per-host statistics record (src/main.py lines 110-113):
`{"success": 0, "failed": 0, "errors": 0, "times": []}`. -/
structure TargetStats where
  success : ℕ
  failed : ℕ
  errors : ℕ
  times : List ℚ
deriving DecidableEq

/-- The zeroed stats entry created for each host before dispatch. -/
def initStats : TargetStats := ⟨0, 0, 0, []⟩

/-- The initial stats dict: every host maps to a zeroed entry. -/
def initMap : String → TargetStats := fun _ => initStats

/-- Test `200 <= status < 400` (src/main.py line 133). -/
def isSuccessStatus (s : ℤ) : Bool := 200 ≤ s && s < 400

/-- Test `400 <= status < 600` (src/main.py line 136). -/
def isFailStatus (s : ℤ) : Bool := 400 ≤ s && s < 600

/-- Body of the `as_completed` loop for one completed result
(src/main.py lines 129-139): `None` status counts as an error; 200-399
counts as a success and appends the elapsed time; 400-599 counts as
failed; anything else counts as an error. -/
def foldOutcome (st : TargetStats) : Outcome → TargetStats
  | .err => { st with errors := st.errors + 1 }
  | .ok s e =>
      if isSuccessStatus s then
        { st with success := st.success + 1, times := st.times ++ [e] }
      else if isFailStatus s then
        { st with failed := st.failed + 1 }
      else
        { st with errors := st.errors + 1 }

/-- Update the stats dict at key `h` with one completed outcome. -/
def updateStats (stats : String → TargetStats) (h : String) (o : Outcome) :
    String → TargetStats :=
  fun x => if x = h then foldOutcome (stats h) o else stats x

/-- The whole `as_completed` aggregation loop (src/main.py lines 125-139),
folding completed `(host, outcome)` pairs in arrival order. -/
def foldResults (results : List (String × Outcome)) (stats : String → TargetStats) :
    String → TargetStats :=
  results.foldl (fun s p => updateStats s p.1 p.2) stats

/-- The multiset of submitted tasks, one per `(host, repetition)` pair
(src/main.py lines 118-122: each `pool.submit` creates a distinct future,
so duplicates in `hosts` are NOT collapsed). -/
def tasks (hosts : List String) (count : ℕ) : List String :=
  hosts.flatMap fun h => List.replicate count h

/-- Key list of a Python dict comprehension over `hosts` (src/main.py lines
110-113): duplicates collapse to the first occurrence. -/
def dictKeys : List String → List String
  | [] => []
  | h :: t => h :: (dictKeys t).filter (fun x => x ≠ h)

/-- Sum `success + failed + errors` of one stats entry. -/
def counterSum (st : TargetStats) : ℕ := st.success + st.failed + st.errors

/-- Does this completed pair hit target `t` with a success outcome? -/
def succOf (t : String) (p : String × Outcome) : Bool :=
  t = p.1 && match p.2 with
    | .ok s _ => isSuccessStatus s
    | .err => false

/-- Does this completed pair hit target `t` with a failed (400-599) outcome? -/
def failOf (t : String) (p : String × Outcome) : Bool :=
  t = p.1 && match p.2 with
    | .ok s _ => !isSuccessStatus s && isFailStatus s
    | .err => false

/-- Does this completed pair hit target `t` with an error outcome
(transport exception or a status outside both ranges)? -/
def errOf (t : String) (p : String × Outcome) : Bool :=
  t = p.1 && match p.2 with
    | .ok s _ => !isSuccessStatus s && !isFailStatus s
    | .err => true

/-- The elapsed time a completed pair contributes to target `t`'s latency
sequence (only success outcomes contribute). -/
def succElapsed (t : String) (p : String × Outcome) : Option ℚ :=
  if t = p.1 then
    match p.2 with
    | .ok s e => if isSuccessStatus s then some e else none
    | .err => none
  else none

/-- Is this outcome classified as a success by the loop? -/
def isSuccessOutcome : Outcome → Bool
  | .ok s _ => isSuccessStatus s
  | .err => false

/-- Outcome classes named by the spec (§4.2 Request Executor). -/
inductive OutcomeClass where
  | success (elapsed : ℚ)
  | clientError
  | transportError
deriving DecidableEq

/-- The spec's classification policy, written from the spec's words
(§4.2): 200-399 → Success with elapsed time; 400-599 → ClientError;
any other status value, or any transport exception, → TransportError. -/
def specClassify : Transport → OutcomeClass
  | .exception _ => .transportError
  | .response s e =>
      if 200 ≤ s ∧ s < 400 then .success e
      else if 400 ≤ s ∧ s < 600 then .clientError
      else .transportError

/-- How the spec says each outcome class updates a stats entry. -/
def applyClass (st : TargetStats) : OutcomeClass → TargetStats
  | .success e => { st with success := st.success + 1, times := st.times ++ [e] }
  | .clientError => { st with failed := st.failed + 1 }
  | .transportError => { st with errors := st.errors + 1 }

/-- Character class `[A-Za-z0-9.-]` of the URL regex (src/main.py line 8). -/
def isHostChar (c : Char) : Bool :=
  c.isUpper || c.isLower || c.isDigit || c = '.' || c = '-'

/-- Python's `\s` restricted to ASCII (the regex is only ever applied to
command-line / file strings; all claim inputs are ASCII). -/
def isPySpace (c : Char) : Bool :=
  c = ' ' || c = '\t' || c = '\n' || c = '\r' || c = '\x0b' || c = '\x0c'

/-- Python's `$` (no MULTILINE): matches at the very end of the string or
just before one trailing newline. -/
def atEnd : List Char → Bool
  | [] => true
  | c :: rest => c = '\n' && rest.isEmpty

/-- Matcher for `[A-Za-z0-9.-]+(?:/[^\s]*)?$` after the literal scheme.
Greedy matching is complete here: `/` is not a host character and `$` can
only succeed at the end (or before one trailing newline), so no
backtracking can turn a greedy failure into a success. -/
def matchAfterScheme (cs : List Char) : Bool :=
  let host := cs.takeWhile isHostChar
  let rest := cs.dropWhile isHostChar
  if host.isEmpty then false
  else
    atEnd rest ||
      (match rest with
       | '/' :: t => atEnd (t.dropWhile (fun c => !isPySpace c))
       | _ => false)

/-- Model of `validate_host` (src/main.py lines 11-13): `re.match` of
`^https://[A-Za-z0-9.-]+(?:/[^\s]*)?$` against the url. -/
def validate_host (url : String) : Bool :=
  match url.data with
  | 'h' :: 't' :: 't' :: 'p' :: 's' :: ':' :: '/' :: '/' :: rest =>
      matchAfterScheme rest
  | _ => false

/-- Parsed command-line arguments (src/main.py lines 72-78). `hosts` and
`file` are `None` when the flag is absent. `output` is irrelevant to the
claims and omitted. -/
structure Args where
  hosts : Option String
  count : ℤ
  file : Option String
deriving DecidableEq

/-- Python truthiness of an `Optional[str]`: `None` and `""` are falsy. -/
def truthy : Option String → Bool
  | none => false
  | some s => !s.isEmpty

/-- Model of `load_hosts_from_file` (src/main.py lines 16-23) on successfully read
raw lines: `[line.strip() for line in f if line.strip()]`. -/
def load_hosts_from_file (lines : List String) : List String :=
  (lines.map String.trim).filter (fun l => !l.isEmpty)

/-- The distinct abort points of `main` before any task is submitted. -/
inductive AbortReason where
  | bothHostsAndFile
  | fileReadError (path : String) (exc : String)
  | neitherHostsNorFile
  | invalidURL (url : String)
  | invalidCount
deriving DecidableEq

/-- The diagnostic printed at each abort point (src/main.py lines 82, 23,
95, 101, 106). -/
def abortMessage : AbortReason → String
  | .bothHostsAndFile => "Ошибка: нельзя использовать одновременно -H и -F."
  | .fileReadError path exc =>
      "Ошибка чтения файла \x27" ++ path ++ "\x27: " ++ exc
  | .neitherHostsNorFile => "Ошибка: необходимо указать -H или -F."
  | .invalidURL url =>
      "Ошибка: некорректный формат URL \x27" ++ url ++
        "\x27. Ожидается https://example.com"
  | .invalidCount => "Ошибка: параметр count должен быть положительным числом."

/-- What a non-aborted run is about to do: the resolved host list and the
multiset of submitted tasks (one entry per `pool.submit`). -/
structure RunPlan where
  hosts : List String
  submitted : List String
deriving DecidableEq

/-- Python's `str.split(",")` (src/main.py line 93): split on every
comma, keeping empty pieces; the empty string yields `[""]`. -/
def splitComma : List Char → List String
  | [] => [""]
  | c :: rest =>
      if c = ',' then "" :: splitComma rest
      else
        match splitComma rest with
        | [] => [String.mk [c]]
        | s :: ss => String.mk (c :: s.data) :: ss

/-- Host-list acquisition (src/main.py lines 81-96): `-H` and `-F` are
mutually exclusive; `-F` reads and strips the file (the `readFile` oracle
returns the raw lines or the exception text); `-H` splits on commas;
neither flag is an error. -/
def resolveHosts (args : Args) (readFile : String → Except String (List String)) :
    Except AbortReason (List String) :=
  if truthy args.hosts && truthy args.file then .error .bothHostsAndFile
  else if truthy args.file then
    match readFile (args.file.getD "") with
    | .error e => .error (.fileReadError (args.file.getD "") e)
    | .ok lines => .ok (load_hosts_from_file lines)
  else if truthy args.hosts then .ok (splitComma (args.hosts.getD "").data)
  else .error .neitherHostsNorFile

/-- The pre-dispatch pipeline of `main` (src/main.py lines 80-122): acquire
hosts, validate each URL (first failure aborts), check `count >= 1`, then
build the task multiset `|hosts| × count`. An `.error` result models
`main` printing the diagnostic and returning before submitting anything. -/
def mainPlan (args : Args) (readFile : String → Except String (List String)) :
    Except AbortReason RunPlan :=
  match resolveHosts args readFile with
  | .error r => .error r
  | .ok hosts =>
      match hosts.find? (fun h => !validate_host h) with
      | some bad => .error (.invalidURL bad)
      | none =>
          if args.count < 1 then .error .invalidCount
          else .ok ⟨hosts, tasks hosts args.count.toNat⟩

/-- The tasks a run submits: none when it aborts. -/
def tasksIssued : Except AbortReason RunPlan → List String
  | .error _ => []
  | .ok p => p.submitted

/-- Python `min` over a nonempty list (print_stats only calls it when
`data["times"]` is nonempty; the `[]` case is a dummy). -/
def listMin : List ℚ → ℚ
  | [] => 0
  | h :: t => t.foldl min h

/-- Python `max` over a nonempty list (dummy on `[]`). -/
def listMax : List ℚ → ℚ
  | [] => 0
  | h :: t => t.foldl max h

/-- Left-pad a fractional part to 4 digits. -/
def pad4 (n : ℕ) : String :=
  let s := toString n
  String.mk (List.replicate (4 - s.length) '0') ++ s

/-- Python's `:.4f` formatting over the exact-rational model: round to the
nearest multiple of 1/10000 and print with exactly 4 decimal digits. -/
def fmt4 (q : ℚ) : String :=
  let sign := if q < 0 then "-" else ""
  let n : ℕ := (round (|q| * 10000)).toNat
  sign ++ toString (n / 10000) ++ "." ++ pad4 (n % 10000)

/-- The lines `print_stats` (src/main.py lines 37-57) emits for one host:
counters, then Min/Max/Avg over `times` when nonempty, `-` otherwise. -/
def statsLines (host : String) (d : TargetStats) : List String :=
  ["Host: " ++ host,
   "  Success: " ++ toString d.success,
   "  Failed:  " ++ toString d.failed,
   "  Errors:  " ++ toString d.errors] ++
  (if !d.times.isEmpty then
     ["  Min: " ++ fmt4 (listMin d.times) ++ " s",
      "  Max: " ++ fmt4 (listMax d.times) ++ " s",
      "  Avg: " ++ fmt4 (d.times.sum / (d.times.length : ℚ)) ++ " s"]
   else ["  Min: -", "  Max: -", "  Avg: -"]) ++
  [""]

/-- The full report: `statsLines` for every dict key in order. -/
def print_stats (keys : List String) (stats : String → TargetStats) : List String :=
  keys.flatMap fun h => statsLines h (stats h)

/-! ## Characterization lemmas for the aggregation loop -/

theorem foldResults_nil (stats : String → TargetStats) :
    foldResults [] stats = stats := rfl

theorem foldResults_cons (p : String × Outcome) (l : List (String × Outcome))
    (stats : String → TargetStats) :
    foldResults (p :: l) stats = foldResults l (updateStats stats p.1 p.2) := rfl

theorem foldResults_append (l1 l2 : List (String × Outcome))
    (stats : String → TargetStats) :
    foldResults (l1 ++ l2) stats = foldResults l2 (foldResults l1 stats) :=
  List.foldl_append ..

theorem counterSum_foldOutcome (st : TargetStats) (o : Outcome) :
    counterSum (foldOutcome st o) = counterSum st + 1 := by
  cases o with
  | err => simp [foldOutcome, counterSum]; omega
  | ok s e =>
      by_cases hs : isSuccessStatus s
      · simp [foldOutcome, hs, counterSum]; omega
      · by_cases hf : isFailStatus s <;>
          simp [foldOutcome, hs, hf, counterSum] <;> omega

theorem updateStats_self (stats : String → TargetStats) (h : String) (o : Outcome) :
    updateStats stats h o h = foldOutcome (stats h) o := by
  simp [updateStats]

theorem updateStats_other (stats : String → TargetStats) (h t : String) (o : Outcome)
    (hne : t ≠ h) : updateStats stats h o t = stats t := by
  simp [updateStats, hne]

theorem foldResults_success :
    ∀ (l : List (String × Outcome)) (stats : String → TargetStats) (t : String),
      (foldResults l stats t).success = (stats t).success + l.countP (succOf t)
  | [], stats, t => by simp [foldResults]
  | (h, o) :: l, stats, t => by
      rw [foldResults_cons, foldResults_success l]
      by_cases ht : t = h
      · subst ht
        rw [updateStats_self]
        cases o with
        | err => simp [foldOutcome, succOf, List.countP_cons]
        | ok s e =>
            by_cases hs : isSuccessStatus s
            · simp [foldOutcome, hs, succOf, List.countP_cons]; omega
            · by_cases hf : isFailStatus s <;>
                simp [foldOutcome, hs, hf, succOf, List.countP_cons]
      · rw [updateStats_other _ _ _ _ ht]
        simp [succOf, List.countP_cons, ht]

theorem foldResults_failed :
    ∀ (l : List (String × Outcome)) (stats : String → TargetStats) (t : String),
      (foldResults l stats t).failed = (stats t).failed + l.countP (failOf t)
  | [], stats, t => by simp [foldResults]
  | (h, o) :: l, stats, t => by
      rw [foldResults_cons, foldResults_failed l]
      by_cases ht : t = h
      · subst ht
        rw [updateStats_self]
        cases o with
        | err => simp [foldOutcome, failOf, List.countP_cons]
        | ok s e =>
            by_cases hs : isSuccessStatus s
            · simp [foldOutcome, hs, failOf, List.countP_cons]
            · by_cases hf : isFailStatus s <;>
                simp [foldOutcome, hs, hf, failOf, List.countP_cons] <;> omega
      · rw [updateStats_other _ _ _ _ ht]
        simp [failOf, List.countP_cons, ht]

theorem foldResults_errors :
    ∀ (l : List (String × Outcome)) (stats : String → TargetStats) (t : String),
      (foldResults l stats t).errors = (stats t).errors + l.countP (errOf t)
  | [], stats, t => by simp [foldResults]
  | (h, o) :: l, stats, t => by
      rw [foldResults_cons, foldResults_errors l]
      by_cases ht : t = h
      · subst ht
        rw [updateStats_self]
        cases o with
        | err => simp [foldOutcome, errOf, List.countP_cons]; omega
        | ok s e =>
            by_cases hs : isSuccessStatus s
            · simp [foldOutcome, hs, errOf, List.countP_cons]
            · by_cases hf : isFailStatus s <;>
                simp [foldOutcome, hs, hf, errOf, List.countP_cons] <;> omega
      · rw [updateStats_other _ _ _ _ ht]
        simp [errOf, List.countP_cons, ht]

theorem foldResults_times :
    ∀ (l : List (String × Outcome)) (stats : String → TargetStats) (t : String),
      (foldResults l stats t).times = (stats t).times ++ l.filterMap (succElapsed t)
  | [], stats, t => by simp [foldResults]
  | (h, o) :: l, stats, t => by
      rw [foldResults_cons, foldResults_times l]
      by_cases ht : t = h
      · subst ht
        rw [updateStats_self]
        cases o with
        | err => simp [foldOutcome, succElapsed, List.filterMap_cons]
        | ok s e =>
            by_cases hs : isSuccessStatus s
            · simp [foldOutcome, hs, succElapsed, List.filterMap_cons]
            · by_cases hf : isFailStatus s <;>
                simp [foldOutcome, hs, hf, succElapsed, List.filterMap_cons]
      · rw [updateStats_other _ _ _ _ ht]
        simp [succElapsed, List.filterMap_cons, ht]

theorem foldResults_counterSum :
    ∀ (l : List (String × Outcome)) (stats : String → TargetStats) (t : String),
      counterSum (foldResults l stats t) =
        counterSum (stats t) + l.countP (fun p => t = p.1)
  | [], stats, t => by simp [foldResults]
  | (h, o) :: l, stats, t => by
      rw [foldResults_cons, foldResults_counterSum l]
      by_cases ht : t = h
      · subst ht
        rw [updateStats_self, counterSum_foldOutcome]
        simp [List.countP_cons]
        omega
      · rw [updateStats_other _ _ _ _ ht]
        simp [List.countP_cons, ht]

theorem isSuccessStatus_iff (s : ℤ) :
    isSuccessStatus s = true ↔ 200 ≤ s ∧ s < 400 := by
  simp [isSuccessStatus]

theorem isFailStatus_iff (s : ℤ) :
    isFailStatus s = true ↔ 400 ≤ s ∧ s < 600 := by
  simp [isFailStatus]

theorem length_filterMap_succElapsed (t : String) :
    ∀ l : List (String × Outcome),
      (l.filterMap (succElapsed t)).length = l.countP (succOf t)
  | [] => rfl
  | (h, o) :: l => by
      rw [List.filterMap_cons, List.countP_cons]
      by_cases ht : t = h
      · subst ht
        cases o with
        | err => simp [succElapsed, succOf, length_filterMap_succElapsed t l]
        | ok s e =>
            by_cases hs : isSuccessStatus s <;>
              simp [succElapsed, succOf, hs, length_filterMap_succElapsed t l]
      · simp [succElapsed, succOf, ht, length_filterMap_succElapsed t l]

/-- C1: for every completed task the aggregation loop classifies the
outcome exactly by the spec's policy: a 200-399 status increments
`success` and appends the elapsed time, a 400-599 status increments
`failed` with no time appended, and any other status — in particular
100-199 and ≥ 600 — or a transport exception (status `None`) increments
`errors`. -/
theorem C1_outcome_classification (st : TargetStats) (tr : Transport)
    (s : ℤ) (e : ℚ) :
    foldOutcome st (perform_request tr) = applyClass st (specClassify tr) ∧
    ((s < 200 ∨ 600 ≤ s) →
      specClassify (.response s e) = .transportError ∧
      foldOutcome st (perform_request (.response s e)) =
        { st with errors := st.errors + 1 }) := by
  constructor
  · cases tr with
    | exception r => rfl
    | response s' e' =>
        by_cases h1 : 200 ≤ s' ∧ s' < 400
        · have hb : isSuccessStatus s' = true := by
            simp [isSuccessStatus]; omega
          simp [perform_request, foldOutcome, specClassify, applyClass, hb, h1]
        · have hb : isSuccessStatus s' = false := by
            simp [isSuccessStatus]; omega
          by_cases h2 : 400 ≤ s' ∧ s' < 600
          · have hf : isFailStatus s' = true := by
              simp [isFailStatus]; omega
            simp [perform_request, foldOutcome, specClassify, applyClass,
              hb, hf, h1, h2]
          · have hf : isFailStatus s' = false := by
              simp [isFailStatus]; omega
            simp [perform_request, foldOutcome, specClassify, applyClass,
              hb, hf, h1, h2]
  · intro h
    have h1 : ¬(200 ≤ s ∧ s < 400) := by omega
    have h2 : ¬(400 ≤ s ∧ s < 600) := by omega
    have hb : isSuccessStatus s = false := by simp [isSuccessStatus]; omega
    have hf : isFailStatus s = false := by simp [isFailStatus]; omega
    exact ⟨by simp [specClassify, h1, h2],
      by simp [perform_request, foldOutcome, hb, hf]⟩

/-- Concrete check of `C1_outcome_classification` at status 150: an
informational status is counted as a transport error. -/
theorem C1_outcome_classification_witness :
    specClassify (.response 150 1) = .transportError ∧
    foldOutcome initStats (perform_request (.response 150 1)) =
      { initStats with errors := initStats.errors + 1 } :=
  (C1_outcome_classification initStats (.response 150 1) 150 1).2 (by omega)

/-- C3: at every point during aggregation (i.e. after folding any
prefix of the completed stream) each target's latency sequence length
equals its `success` counter, and one folding step appends an elapsed
time if and only if the outcome is a success (status 200-399). -/
theorem C3_latency_length_eq_success (pre : List (String × Outcome))
    (t : String) (st : TargetStats) (o : Outcome) :
    (foldResults pre initMap t).times.length =
      (foldResults pre initMap t).success ∧
    (((foldOutcome st o).times.length = st.times.length + 1 ∧
        (foldOutcome st o).success = st.success + 1 ∧
        isSuccessOutcome o = true) ∨
      ((foldOutcome st o).times = st.times ∧
        (foldOutcome st o).success = st.success ∧
        isSuccessOutcome o = false)) := by
  constructor
  · rw [foldResults_times, foldResults_success]
    simp [initMap, initStats, length_filterMap_succElapsed]
  · cases o with
    | err => right; simp [foldOutcome, isSuccessOutcome]
    | ok s e =>
        by_cases hs : isSuccessStatus s
        · left; simp [foldOutcome, isSuccessOutcome, hs]
        · right
          by_cases hf : isFailStatus s <;>
            simp [foldOutcome, isSuccessOutcome, hs, hf]

/-- C5: `perform_request` never raises to the dispatcher: every
transport-level failure (connection refused, timeout, DNS failure, TLS
failure, or any other `RequestException`) yields the `(None, None)`
outcome; the aggregator folds every such outcome into the target's
`errors` counter, and the fold keeps processing the rest of the stream
afterwards. -/
theorem C5_transport_error_absorbed (reason : TransportFailure)
    (st : TargetStats) (pre suf : List (String × Outcome)) (t : String)
    (stats : String → TargetStats) :
    perform_request (.exception reason) = .err ∧
    foldOutcome st .err = { st with errors := st.errors + 1 } ∧
    errOf t (t, .err) = true ∧
    (foldResults pre initMap t).errors = pre.countP (errOf t) ∧
    foldResults (pre ++ (t, Outcome.err) :: suf) stats =
      foldResults suf (updateStats (foldResults pre stats) t .err) := by
  refine ⟨rfl, rfl, by simp [errOf], ?_, ?_⟩
  · rw [foldResults_errors]; simp [initMap, initStats]
  · rw [foldResults_append, foldResults_cons]

/-- C4: folding is order-independent: for every two permutations of
the same multiset of completed `(target, outcome)` pairs, the final
per-target stats agree — identical counters and identical multisets of
latency samples — for every target. -/
theorem C4_fold_order_independent (r1 r2 : List (String × Outcome))
    (hperm : r1.Perm r2) (t : String) :
    (foldResults r1 initMap t).success = (foldResults r2 initMap t).success ∧
    (foldResults r1 initMap t).failed = (foldResults r2 initMap t).failed ∧
    (foldResults r1 initMap t).errors = (foldResults r2 initMap t).errors ∧
    ((foldResults r1 initMap t).times : Multiset ℚ) =
      ((foldResults r2 initMap t).times : Multiset ℚ) := by
  refine ⟨?_, ?_, ?_, ?_⟩
  · rw [foldResults_success, foldResults_success, hperm.countP_eq]
  · rw [foldResults_failed, foldResults_failed, hperm.countP_eq]
  · rw [foldResults_errors, foldResults_errors, hperm.countP_eq]
  · rw [foldResults_times, foldResults_times]
    simp only [initMap, initStats, List.nil_append]
    exact Multiset.coe_eq_coe.mpr (hperm.filterMap (succElapsed t))

/-- Concrete check of `C4_fold_order_independent` on a two-element stream
folded in both orders. -/
theorem C4_fold_order_independent_witness :
    (foldResults [("https://a.com", .ok 200 1), ("https://a.com", .err)]
        initMap "https://a.com").success =
      (foldResults [("https://a.com", .err), ("https://a.com", .ok 200 1)]
        initMap "https://a.com").success ∧
    (foldResults [("https://a.com", .ok 200 1), ("https://a.com", .err)]
        initMap "https://a.com").failed =
      (foldResults [("https://a.com", .err), ("https://a.com", .ok 200 1)]
        initMap "https://a.com").failed ∧
    (foldResults [("https://a.com", .ok 200 1), ("https://a.com", .err)]
        initMap "https://a.com").errors =
      (foldResults [("https://a.com", .err), ("https://a.com", .ok 200 1)]
        initMap "https://a.com").errors ∧
    ((foldResults [("https://a.com", .ok 200 1), ("https://a.com", .err)]
        initMap "https://a.com").times : Multiset ℚ) =
      ((foldResults [("https://a.com", .err), ("https://a.com", .ok 200 1)]
        initMap "https://a.com").times : Multiset ℚ) :=
  C4_fold_order_independent _ _ (List.Perm.swap _ _ _) "https://a.com"

theorem countP_eq_count (u : String) :
    ∀ m : List String, (m.countP fun x => u = x) = m.count u
  | [] => rfl
  | a :: m => by
      rw [List.countP_cons, List.count_cons, countP_eq_count u m]
      by_cases h : u = a
      · simp [h]
      · simp [h, Ne.symm h]

theorem tasks_count (t : String) (count : ℕ) :
    ∀ hosts : List String,
      (tasks hosts count).count t = hosts.count t * count
  | [] => by simp [tasks]
  | h :: hosts => by
      rw [tasks, List.flatMap_cons, ← tasks, List.count_append,
        List.count_replicate, List.count_cons, tasks_count t count hosts]
      by_cases ht : h = t
      · simp [ht, Nat.add_mul]; omega
      · simp [ht]

theorem tasks_length (count : ℕ) :
    ∀ hosts : List String, (tasks hosts count).length = hosts.length * count
  | [] => by simp [tasks]
  | h :: hosts => by
      rw [tasks, List.flatMap_cons, ← tasks, List.length_append,
        List.length_replicate, tasks_length count hosts, List.length_cons]
      ring

theorem mem_of_mem_tasks {x : String} {hosts : List String} {count : ℕ}
    (hx : x ∈ tasks hosts count) : x ∈ hosts := by
  rw [tasks, List.mem_flatMap] at hx
  obtain ⟨a, ha, hrep⟩ := hx
  rwa [List.eq_of_mem_replicate hrep]

theorem mem_dictKeys (x : String) :
    ∀ l : List String, x ∈ dictKeys l ↔ x ∈ l
  | [] => Iff.rfl
  | h :: l => by
      by_cases hx : x = h
      · simp [dictKeys, hx]
      · simp [dictKeys, hx, List.mem_filter, mem_dictKeys x l]

theorem dictKeys_nodup : ∀ l : List String, (dictKeys l).Nodup
  | [] => List.nodup_nil
  | h :: l => by
      rw [dictKeys]
      refine List.nodup_cons.mpr ⟨?_, List.Nodup.filter _ (dictKeys_nodup l)⟩
      intro hmem
      have := (List.mem_filter.mp hmem).2
      simp at this

theorem sum_map_count_eq (l m : List String) (hl : l.Nodup)
    (hm : ∀ x ∈ m, x ∈ l) :
    (l.map fun u => m.count u).sum = m.length := by
  rw [← List.sum_toFinset _ hl, ← List.sum_toFinset_count_eq_length m]
  refine (Finset.sum_subset ?_ ?_).symm
  · intro x hx
    exact List.mem_toFinset.mpr (hm x (List.mem_toFinset.mp hx))
  · intro x _ hx
    exact List.count_eq_zero.mpr fun hmem => hx (List.mem_toFinset.mpr hmem)

theorem counterSum_foldResults_count (results : List (String × Outcome))
    (u : String) :
    counterSum (foldResults results initMap u) =
      (results.map Prod.fst).count u := by
  rw [foldResults_counterSum]
  simp only [initMap, initStats, counterSum]
  rw [← countP_eq_count, List.countP_map]
  simp [Function.comp_def]

/-- C2: at every point during aggregation (after any folded prefix
`pre`), each target's `success + failed + errors` equals the number of
completed pairs folded so far for that target; and when the completed
stream is a permutation of the full task multiset, the counter sum over
all (distinct) targets equals `|hosts| × count`. -/
theorem C2_counter_sum_invariant (hosts : List String) (count : ℕ)
    (results pre : List (String × Outcome)) (t : String)
    (hperm : (results.map Prod.fst).Perm (tasks hosts count)) :
    counterSum (foldResults pre initMap t) = (pre.countP fun p => t = p.1) ∧
    ((dictKeys hosts).map fun u =>
        counterSum (foldResults results initMap u)).sum =
      hosts.length * count := by
  constructor
  · rw [foldResults_counterSum]
    simp [initMap, initStats, counterSum]
  · have hpt : ∀ u, counterSum (foldResults results initMap u) =
        (tasks hosts count).count u :=
      fun u => (counterSum_foldResults_count results u).trans (hperm.count_eq u)
    simp only [hpt]
    rw [sum_map_count_eq _ _ (dictKeys_nodup hosts)
      (fun x hx => (mem_dictKeys x hosts).mpr (mem_of_mem_tasks hx))]
    exact tasks_length count hosts

/-- Concrete check of `C2_counter_sum_invariant`: one host, one
repetition, one folded transport error. -/
theorem C2_counter_sum_invariant_witness :
    counterSum (foldResults [("https://a.com", Outcome.err)] initMap
        "https://a.com") =
      ([("https://a.com", Outcome.err)].countP fun p => "https://a.com" = p.1) ∧
    ((dictKeys ["https://a.com"]).map fun u =>
        counterSum (foldResults [("https://a.com", Outcome.err)] initMap u)).sum =
      ["https://a.com"].length * 1 :=
  C2_counter_sum_invariant ["https://a.com"] 1 [("https://a.com", Outcome.err)]
    [("https://a.com", Outcome.err)] "https://a.com" (by simp [tasks])

/-- C10: a host string occurring `k > 1` times in the input list is
neither rejected nor deduplicated: the stats dict has exactly one entry
for it, the task multiset contains `k × count` tasks for it, and after
folding all completed results its counter sum is `k × count` (i.e.
`hosts.count t * count`), not `count`. -/
theorem C10_duplicate_targets_merged (hosts : List String) (count : ℕ)
    (t : String) (results : List (String × Outcome))
    (hperm : (results.map Prod.fst).Perm (tasks hosts count))
    (hmem : t ∈ hosts) :
    (dictKeys hosts).count t = 1 ∧
    (tasks hosts count).count t = hosts.count t * count ∧
    counterSum (foldResults results initMap t) = hosts.count t * count := by
  refine ⟨?_, tasks_count t count hosts, ?_⟩
  · exact List.count_eq_one_of_mem (dictKeys_nodup hosts)
      ((mem_dictKeys t hosts).mpr hmem)
  · rw [counterSum_foldResults_count, hperm.count_eq, tasks_count]

/-- Concrete check of `C10_duplicate_targets_merged`: the same host twice
with one repetition each gives one merged entry with counter sum 2. -/
theorem C10_duplicate_targets_merged_witness :
    (dictKeys ["https://a.com", "https://a.com"]).count "https://a.com" = 1 ∧
    (tasks ["https://a.com", "https://a.com"] 1).count "https://a.com" =
      ["https://a.com", "https://a.com"].count "https://a.com" * 1 ∧
    counterSum (foldResults
        [("https://a.com", Outcome.err), ("https://a.com", Outcome.ok 200 1)]
        initMap "https://a.com") =
      ["https://a.com", "https://a.com"].count "https://a.com" * 1 :=
  C10_duplicate_targets_merged ["https://a.com", "https://a.com"] 1
    "https://a.com"
    [("https://a.com", Outcome.err), ("https://a.com", Outcome.ok 200 1)]
    (by simp [tasks]) (by simp)

/-- C6: if the resolved target list contains any string failing the
URL format regex, `main` aborts before submitting any task, with the
diagnostic naming an offending string (the first one the loop hits). -/
theorem C6_invalid_url_aborts (args : Args)
    (readFile : String → Except String (List String)) (hosts : List String)
    (hres : resolveHosts args readFile = .ok hosts)
    (hbad : ∃ u ∈ hosts, validate_host u = false) :
    ∃ u ∈ hosts, validate_host u = false ∧
      mainPlan args readFile = .error (.invalidURL u) ∧
      tasksIssued (mainPlan args readFile) = [] ∧
      abortMessage (.invalidURL u) =
        "Ошибка: некорректный формат URL \x27" ++ u ++
          "\x27. Ожидается https://example.com" := by
  have hsome : (hosts.find? fun h => !validate_host h).isSome := by
    rw [List.find?_isSome]
    obtain ⟨u, hu, hv⟩ := hbad
    exact ⟨u, hu, by simp [hv]⟩
  obtain ⟨bad, hfind⟩ := Option.isSome_iff_exists.mp hsome
  have hbadv : validate_host bad = false := by
    have := List.find?_some hfind
    simpa using this
  refine ⟨bad, List.mem_of_find?_eq_some hfind, hbadv, ?_, ?_, rfl⟩
  · simp [mainPlan, hres, hfind]
  · simp [mainPlan, hres, hfind, tasksIssued]

/-- Concrete check of `C6_invalid_url_aborts`: one valid and one
wrong-scheme target abort the run with no task submitted. -/
theorem C6_invalid_url_aborts_witness :
    ∃ u ∈ ["https://ok.com", "http://bad.com"], validate_host u = false ∧
      mainPlan ⟨some "https://ok.com,http://bad.com", 1, none⟩
          (fun _ => .error "") = .error (.invalidURL u) ∧
      tasksIssued (mainPlan ⟨some "https://ok.com,http://bad.com", 1, none⟩
          (fun _ => .error "")) = [] ∧
      abortMessage (.invalidURL u) =
        "Ошибка: некорректный формат URL \x27" ++ u ++
          "\x27. Ожидается https://example.com" :=
  C6_invalid_url_aborts ⟨some "https://ok.com,http://bad.com", 1, none⟩
    (fun _ => .error "") ["https://ok.com", "http://bad.com"]
    rfl ⟨"http://bad.com", by decide, by decide⟩

/-- C7: a zero or negative repeat count makes the run abort with no
task ever submitted; when the host list resolves and every host is valid,
the abort is precisely the count configuration error. -/
theorem C7_nonpositive_count_aborts (args : Args)
    (readFile : String → Except String (List String))
    (hc : args.count < 1) :
    (∃ r, mainPlan args readFile = .error r) ∧
    tasksIssued (mainPlan args readFile) = [] ∧
    (∀ hosts, resolveHosts args readFile = .ok hosts →
      (∀ u ∈ hosts, validate_host u = true) →
      mainPlan args readFile = .error .invalidCount) := by
  rcases hres : resolveHosts args readFile with r | hosts
  · refine ⟨⟨r, by simp [mainPlan, hres]⟩, by simp [mainPlan, hres, tasksIssued], ?_⟩
    intro hosts h
    exact absurd h (by simp)
  · rcases hfind : hosts.find? (fun h => !validate_host h) with _ | bad
    · refine ⟨⟨.invalidCount, by simp [mainPlan, hres, hfind, hc]⟩,
        by simp [mainPlan, hres, hfind, hc, tasksIssued], ?_⟩
      intro hosts' h _
      cases h
      simp [mainPlan, hres, hfind, hc]
    · refine ⟨⟨.invalidURL bad, by simp [mainPlan, hres, hfind]⟩,
        by simp [mainPlan, hres, hfind, tasksIssued], ?_⟩
      intro hosts' h hall
      cases h
      have h1 := List.find?_some hfind
      have h2 := List.mem_of_find?_eq_some hfind
      have := hall bad h2
      simp [this] at h1

/-- Concrete check of `C7_nonpositive_count_aborts` at count 0 with a
valid host. -/
theorem C7_nonpositive_count_aborts_witness :
    mainPlan ⟨some "https://a.com", 0, none⟩ (fun _ => .error "") =
      .error .invalidCount ∧
    tasksIssued (mainPlan ⟨some "https://a.com", 0, none⟩
      (fun _ => .error "")) = [] :=
  ⟨(C7_nonpositive_count_aborts ⟨some "https://a.com", 0, none⟩
      (fun _ => .error "") (by decide)).2.2 ["https://a.com"] rfl
      (by decide),
   (C7_nonpositive_count_aborts ⟨some "https://a.com", 0, none⟩
      (fun _ => .error "") (by decide)).2.1⟩

/-- C8 counterexample: the claim says supplying both `-H` and `-F`,
or neither, produces the *same* configuration-error message. The code
prints two different diagnostics: at these concrete inputs both runs
abort, but the messages differ. -/
theorem C8_counterexample :
    mainPlan ⟨some "https://a.com", 1, some "hosts.txt"⟩ (fun _ => .ok []) =
      .error .bothHostsAndFile ∧
    mainPlan ⟨none, 1, none⟩ (fun _ => .ok []) =
      .error .neitherHostsNorFile ∧
    abortMessage .bothHostsAndFile ≠ abortMessage .neitherHostsNorFile := by
  refine ⟨rfl, rfl, by decide⟩

/-- C8 amended: supplying both an inline host list and a host-list
file, or supplying neither, aborts before any network call with a
configuration error; the two cases print distinct diagnostics. -/
theorem C8_mutually_exclusive_modes (args : Args)
    (readFile : String → Except String (List String)) :
    (truthy args.hosts = true → truthy args.file = true →
      mainPlan args readFile = .error .bothHostsAndFile ∧
      tasksIssued (mainPlan args readFile) = []) ∧
    (truthy args.hosts = false → truthy args.file = false →
      mainPlan args readFile = .error .neitherHostsNorFile ∧
      tasksIssued (mainPlan args readFile) = []) ∧
    abortMessage .bothHostsAndFile ≠ abortMessage .neitherHostsNorFile := by
  refine ⟨?_, ?_, by decide⟩
  · intro h1 h2
    constructor <;> simp [mainPlan, resolveHosts, h1, h2, tasksIssued]
  · intro h1 h2
    constructor <;> simp [mainPlan, resolveHosts, h1, h2, tasksIssued]

/-- Concrete check of `C8_mutually_exclusive_modes` in both modes. -/
theorem C8_mutually_exclusive_modes_witness :
    mainPlan ⟨some "https://b.com", 1, some "h.txt"⟩ (fun _ => .ok []) =
      .error .bothHostsAndFile ∧
    mainPlan ⟨none, 2, none⟩ (fun _ => .ok []) =
      .error .neitherHostsNorFile :=
  ⟨((C8_mutually_exclusive_modes ⟨some "https://b.com", 1, some "h.txt"⟩
      (fun _ => .ok [])).1 rfl rfl).1,
   ((C8_mutually_exclusive_modes ⟨none, 2, none⟩
      (fun _ => .ok [])).2.1 rfl rfl).1⟩

theorem foldl_min_mem : ∀ (t : List ℚ) (a : ℚ), t.foldl min a ∈ a :: t
  | [], a => List.mem_singleton.mpr rfl
  | b :: t, a => by
      have h := foldl_min_mem t (min a b)
      rcases List.mem_cons.mp h with h1 | h1
      · rcases min_choice a b with hm | hm
        · exact List.mem_cons.mpr (Or.inl (by rw [List.foldl_cons, h1, hm]))
        · refine List.mem_cons.mpr (Or.inr ?_)
          exact List.mem_cons.mpr (Or.inl (by rw [List.foldl_cons, h1, hm]))
      · exact List.mem_cons.mpr (Or.inr (List.mem_cons.mpr (Or.inr h1)))

theorem foldl_min_le_init : ∀ (t : List ℚ) (a : ℚ), t.foldl min a ≤ a
  | [], a => le_refl a
  | b :: t, a =>
      le_trans (foldl_min_le_init t (min a b)) (min_le_left a b)

theorem foldl_min_le_mem :
    ∀ (t : List ℚ) (a x : ℚ), x ∈ t → t.foldl min a ≤ x
  | [], _, x, hx => absurd hx (List.not_mem_nil x)
  | b :: t, a, x, hx => by
      rcases List.mem_cons.mp hx with h | h
      · subst h
        exact le_trans (foldl_min_le_init t (min a x)) (min_le_right a x)
      · exact foldl_min_le_mem t (min a b) x h

theorem foldl_max_mem : ∀ (t : List ℚ) (a : ℚ), t.foldl max a ∈ a :: t
  | [], a => List.mem_singleton.mpr rfl
  | b :: t, a => by
      have h := foldl_max_mem t (max a b)
      rcases List.mem_cons.mp h with h1 | h1
      · rcases max_choice a b with hm | hm
        · exact List.mem_cons.mpr (Or.inl (by rw [List.foldl_cons, h1, hm]))
        · refine List.mem_cons.mpr (Or.inr ?_)
          exact List.mem_cons.mpr (Or.inl (by rw [List.foldl_cons, h1, hm]))
      · exact List.mem_cons.mpr (Or.inr (List.mem_cons.mpr (Or.inr h1)))

theorem foldl_max_ge_init : ∀ (t : List ℚ) (a : ℚ), a ≤ t.foldl max a
  | [], a => le_refl a
  | b :: t, a =>
      le_trans (le_max_left a b) (foldl_max_ge_init t (max a b))

theorem foldl_max_ge_mem :
    ∀ (t : List ℚ) (a x : ℚ), x ∈ t → x ≤ t.foldl max a
  | [], _, x, hx => absurd hx (List.not_mem_nil x)
  | b :: t, a, x, hx => by
      rcases List.mem_cons.mp hx with h | h
      · subst h
        exact le_trans (le_max_right a x) (foldl_max_ge_init t (max a x))
      · exact foldl_max_ge_mem t (max a b) x h

theorem listMin_spec (l : List ℚ) (hl : l ≠ []) :
    listMin l ∈ l ∧ ∀ x ∈ l, listMin l ≤ x := by
  match l, hl with
  | h :: t, _ =>
      refine ⟨foldl_min_mem t h, ?_⟩
      intro x hx
      rcases List.mem_cons.mp hx with h1 | h1
      · subst h1; exact foldl_min_le_init t x
      · exact foldl_min_le_mem t h x h1

theorem listMax_spec (l : List ℚ) (hl : l ≠ []) :
    listMax l ∈ l ∧ ∀ x ∈ l, x ≤ listMax l := by
  match l, hl with
  | h :: t, _ =>
      refine ⟨foldl_max_mem t h, ?_⟩
      intro x hx
      rcases List.mem_cons.mp hx with h1 | h1
      · subst h1; exact foldl_max_ge_init t x
      · exact foldl_max_ge_mem t h x h1

/-- C9: in the final report, a target whose stats satisfy the fold
invariant (`times.length = success`) shows, when it has at least one
success, `Min`/`Max`/`Avg` computed over the success-latency sequence
only — the displayed Min is a true minimum of the sequence, Max a true
maximum, and Avg its arithmetic mean `sum / length` — each rendered by
the 4-decimal-place seconds formatter; with zero successes all three
fields display as `-`. -/
theorem C9_report_latency_fields (host : String) (d : TargetStats)
    (hinv : d.times.length = d.success) :
    (0 < d.success →
      statsLines host d =
        ["Host: " ++ host,
         "  Success: " ++ toString d.success,
         "  Failed:  " ++ toString d.failed,
         "  Errors:  " ++ toString d.errors,
         "  Min: " ++ fmt4 (listMin d.times) ++ " s",
         "  Max: " ++ fmt4 (listMax d.times) ++ " s",
         "  Avg: " ++ fmt4 (d.times.sum / (d.times.length : ℚ)) ++ " s",
         ""] ∧
      listMin d.times ∈ d.times ∧ (∀ x ∈ d.times, listMin d.times ≤ x) ∧
      listMax d.times ∈ d.times ∧ (∀ x ∈ d.times, x ≤ listMax d.times)) ∧
    (d.success = 0 →
      statsLines host d =
        ["Host: " ++ host,
         "  Success: " ++ toString d.success,
         "  Failed:  " ++ toString d.failed,
         "  Errors:  " ++ toString d.errors,
         "  Min: -", "  Max: -", "  Avg: -", ""]) := by
  constructor
  · intro hpos
    have hne : d.times ≠ [] := by
      intro h
      rw [h] at hinv
      simp at hinv
      omega
    obtain ⟨hmin_mem, hmin_le⟩ := listMin_spec d.times hne
    obtain ⟨hmax_mem, hmax_ge⟩ := listMax_spec d.times hne
    refine ⟨?_, hmin_mem, hmin_le, hmax_mem, hmax_ge⟩
    simp [statsLines, hne]
  · intro hz
    have hempty : d.times = [] := by
      rw [← List.length_eq_zero, hinv, hz]
    simp [statsLines, hempty]

/-- Concrete check of `C9_report_latency_fields` on a 2-success entry
(latencies 1/2 s and 3/2 s) and a 0-success entry. -/
theorem C9_report_latency_fields_witness :
    (statsLines "https://a.com" ⟨2, 0, 0, [1/2, 3/2]⟩ =
      ["Host: https://a.com", "  Success: 2", "  Failed:  0",
       "  Errors:  0",
       "  Min: " ++ fmt4 (listMin [1/2, 3/2]) ++ " s",
       "  Max: " ++ fmt4 (listMax [1/2, 3/2]) ++ " s",
       "  Avg: " ++ fmt4 (([(1:ℚ)/2, 3/2].sum) / (([(1:ℚ)/2, 3/2].length : ℚ)) ) ++ " s",
       ""] ∧
      listMin [1/2, 3/2] ∈ [(1:ℚ)/2, 3/2] ∧
      listMax [1/2, 3/2] ∈ [(1:ℚ)/2, 3/2]) ∧
    statsLines "https://b.com" ⟨0, 1, 2, []⟩ =
      ["Host: https://b.com", "  Success: 0", "  Failed:  1",
       "  Errors:  2", "  Min: -", "  Max: -", "  Avg: -", ""] := by
  have h := C9_report_latency_fields "https://a.com" ⟨2, 0, 0, [1/2, 3/2]⟩ (by decide)
  have h0 := C9_report_latency_fields "https://b.com" ⟨0, 1, 2, []⟩ (by decide)
  exact ⟨⟨(h.1 (by decide)).1, (h.1 (by decide)).2.1, (h.1 (by decide)).2.2.2.1⟩,
    (h0.2 rfl).trans (by decide)⟩
